import Mathlib

set_option autoImplicit false
set_option linter.unusedVariables false

/-!
Verification of the FastAPI-CRUD core: a shallow embedding of the generic
CRUD repository (`src/core/bases/base_repository.py`) and of the dynamic
field-introspection engine (`src/core/services/field_service.py`,
`src/core/FieldParser.py`), with theorems settling the specification's
claims about them.
-/

namespace FastapiCrud

/-- Semantic field types, from `src/core/schemas/fields.py` (`FieldType`). -/
inductive FieldType where
  | STRING
  | INTEGER
  | FLOAT
  | BOOLEAN
  | DATETIME
  | TEXT
  | JSON
  | EMAIL
  | URL
  | UUID
deriving DecidableEq

/-- Relationship kinds, from `src/core/schemas/fields.py` (`RelationshipType`). -/
inductive RelationshipType where
  | FOREIGN_KEY
  | ONE_TO_MANY
  | MANY_TO_ONE
  | MANY_TO_MANY
deriving DecidableEq

/-- Relationship descriptor, from `src/core/schemas/fields.py`
(`RelationshipInfo`). -/
structure RelationshipInfo where
  type : RelationshipType
  related_model : String
  related_field : Option String := none
  description : String
deriving DecidableEq

/-- A Python type annotation as consumed by `FieldService`: a plain named
type (`str`, `int`, `datetime`, a model class, ...), an `Optional[...]`
wrapper, or a `List[...]` wrapper. -/
inductive PyType where
  | base (name : String)
  | optional (t : PyType)
  | listOf (t : PyType)
deriving DecidableEq

/-- Whether the annotation object carries a `__name__` attribute: plain
classes do; `Optional[...]`/`List[...]` typing constructs do not on
CPython up to 3.9, the semantics modelled here. (From 3.10 they expose
`__name__` as `Optional`/`List`, which would send them into the
capitalized-type branch of `_detect_relationship` — a `many_to_one`
result, never a `foreign_key`, so the relationship-rule statements below
hold under either reading.) -/
def PyType.hasName : PyType → Bool
  | .base _ => true
  | _ => false

/-- The `__origin__` attribute values relevant to this code: CPython
normalizes `Optional[X]` to `Union[X, None]`, whose origin is
`typing.Union`; `List[X]` and `list[X]` have origin `list`; the
`typing.Optional` special form itself is never anything's origin. -/
inductive PyOrigin where
  | union
  | builtinList
  | optionalForm
deriving DecidableEq

/-- Python `getattr(field_type, '__origin__', None)`: a plain class has no
`__origin__`; `Optional[X]` yields `typing.Union`; `List[X]` yields
`list`. -/
def PyType.originAttr : PyType → Option PyOrigin
  | .base _ => none
  | .optional _ => some .union
  | .listOf _ => some .builtinList

/-- The `__name__` of a plain class annotation (only read under `hasName`). -/
def PyType.typeName : PyType → String
  | .base n => n
  | _ => ""

/-- Python `str(annotation)`, used only as an opaque label. -/
def PyType.render : PyType → String
  | .base n => n
  | .optional t => "typing.Optional[" ++ t.render ++ "]"
  | .listOf t => "typing.List[" ++ t.render ++ "]"

/-- Python `s[0].isupper()`. A real class `__name__` is never empty; Python
would raise on the empty string, the embedding answers `false` there. -/
def headIsUpper (s : String) : Bool :=
  match s.data with
  | [] => false
  | c :: _ => c.isUpper

/-- Python `str.capitalize()`: first character upper-cased, the rest
lower-cased. -/
def pyCapitalize (s : String) : String :=
  match s.data with
  | [] => ""
  | c :: cs => String.mk (c.toUpper :: cs.map Char.toLower)

/-- Does the character list start with the given pattern? -/
def charsStartWith : List Char → List Char → Bool
  | [], _ => true
  | _ :: _, [] => false
  | p :: ps, c :: cs => p == c && charsStartWith ps cs

/-- Does the character list contain the pattern as a contiguous run? -/
def charsContain (pat : List Char) : List Char → Bool
  | [] => pat.isEmpty
  | c :: cs => charsStartWith pat (c :: cs) || charsContain pat cs

/-- Python `sub in s` on strings. -/
def strHasSub (s sub : String) : Bool :=
  charsContain sub.data s.data

/-- Python `s.endswith(suffix)`. -/
def pyEndsWith (s suffix : String) : Bool :=
  decide (suffix.data.length ≤ s.data.length) &&
    (s.data.drop (s.data.length - suffix.data.length)) == suffix.data

/-- Python `s.startswith(pre)`. -/
def pyStartsWith (s pre : String) : Bool :=
  charsStartWith pre.data s.data

/-- Python `s.lower()`. -/
def pyToLower (s : String) : String :=
  String.mk (s.data.map Char.toLower)

/-- Python `s[:-n]` (for `n ≤ len(s)`). -/
def pyDropRight (s : String) (n : Nat) : String :=
  String.mk (s.data.take (s.data.length - n))

/-- Python `s.replace('_', ' ')`. -/
def underscoresToSpaces (s : String) : String :=
  String.mk (s.data.map (fun c => if c == '_' then ' ' else c))

/-- Python `str.title()`: the first letter of every alphabetic run is
upper-cased, the following letters lower-cased. -/
def pyTitleAux : List Char → Bool → List Char
  | [], _ => []
  | c :: cs, prevAlpha =>
    (if c.isAlpha then (if prevAlpha then c.toLower else c.toUpper) else c)
      :: pyTitleAux cs c.isAlpha

/-- Python `str.title()`. -/
def pyTitle (s : String) : String :=
  String.mk (pyTitleAux s.data false)

/-- A Python runtime value as far as `FieldService` inspects field defaults:
a primitive, or a wrapper object exposing an `arg` attribute (which may
itself be Python `None`, modelled by `argWrapNone`). -/
inductive PyVal where
  | vInt (n : Int)
  | vStr (s : String)
  | vBool (b : Bool)
  | argWrapNone
  | argWrap (v : PyVal)
deriving DecidableEq

/-- Python truthiness of the modelled values. -/
def PyVal.truthy : PyVal → Bool
  | .vInt n => n != 0
  | .vStr s => s != ""
  | .vBool b => b
  | .argWrapNone => true
  | .argWrap _ => true

/-- Python `hasattr(v, 'arg')` for the modelled values. -/
def PyVal.hasArgAttr : PyVal → Bool
  | .argWrapNone => true
  | .argWrap _ => true
  | _ => false

/-- The `arg` attribute of a wrapper value (Python `None` becomes `none`). -/
def PyVal.argOf : PyVal → Option PyVal
  | .argWrapNone => none
  | .argWrap v => some v
  | _ => none

/-- Pydantic `FieldInfo` metadata attached to a model field (the object the
source reads through `getattr(field_info, 'field_info', None)`); it always
exposes `default`, `max_length`, `ge` and `le` attributes. -/
structure FieldExtra where
  default : Option PyVal := none
  max_length : Option Int := none
  ge : Option Int := none
  le : Option Int := none
deriving DecidableEq

/-- The per-field metadata object iterated by `get_model_definition`
(an entry of `model_class.__fields__`). -/
structure FieldInfoPy where
  default : Option PyVal := none
  field_info : Option FieldExtra := none
deriving DecidableEq

/-- Validation constraints, from `src/core/schemas/fields.py`
(`FieldValidation`). -/
structure FieldValidation where
  required : Bool := false
  min_length : Option Int := none
  max_length : Option Int := none
  min_value : Option Int := none
  max_value : Option Int := none
  pattern : Option String := none
deriving DecidableEq

/-- Normalized field descriptor, from `src/core/schemas/fields.py`
(`ModelField`). -/
structure ModelField where
  name : String
  type : FieldType
  python_type : String
  is_required : Bool := false
  is_relationship : Bool := false
  is_list : Bool := false
  default_value : Option PyVal := none
  validation : Option FieldValidation := none
  relationship : Option RelationshipInfo := none
  description : Option String := none
deriving DecidableEq

/-- A declared model class as consumed by `FieldService`: class name,
optional explicit `__tablename__`, and the ordered declared fields
(name, annotation, field metadata). -/
structure PyModelClass where
  name : String
  tablename : Option String := none
  fields : List (String × PyType × FieldInfoPy)

/-- Aggregated model definition, from `src/core/schemas/fields.py`
(`ModelDefinition`). -/
structure ModelDefinition where
  model_name : String
  table_name : String
  fields : List ModelField
  relationships : List RelationshipInfo
deriving DecidableEq

namespace FieldService

/-- The primitive type names excluded from model-reference detection in
`FieldService._detect_relationship`. -/
def primitiveNames : List String :=
  ["str", "int", "float", "bool", "dict", "list"]

/-- `FieldService._get_base_type`. Its `Handle Optional[Type]` branch tests
`origin is Optional or origin.__name__ == 'Optional'`; the origin of
`Optional[X]` is `typing.Union` (named `Union`), so the branch never fires
and an `Optional[...]` annotation falls through every branch — its
`__name__` (`Optional`, when present) matches no name fragment — to the
`STRING` default. The `List[Type]` branch does fire (origin `list`) and
recurses into the element; a plain class literally named `List` hits that
branch's name test with no `__args__` and returns `JSON`. Otherwise a base
class maps through `TYPE_MAPPINGS` keyed on the builtin classes, then by
name fragments (`uuid`, `datetime`, `email`, `url`), defaulting to
`STRING`. -/
def get_base_type : PyType → FieldType
  | .optional _ => .STRING
  | .listOf t => get_base_type t
  | .base n =>
    if n == "List" then .JSON
    else if n == "str" then .STRING
    else if n == "int" then .INTEGER
    else if n == "float" then .FLOAT
    else if n == "bool" then .BOOLEAN
    else if n == "dict" then .JSON
    else if n == "list" then .JSON
    else
      let ln := pyToLower n
      if strHasSub ln "uuid" then .UUID
      else if strHasSub ln "datetime" then .DATETIME
      else if strHasSub ln "email" then .EMAIL
      else if strHasSub ln "url" then .URL
      else .STRING

/-- `FieldService._get_python_type_name`. -/
def get_python_type_name (t : PyType) : String :=
  match t with
  | .base n => n
  | _ => t.render

/-- `FieldService._is_optional_type`: `origin is Optional`. No annotation's
`__origin__` is the `typing.Optional` special form — `Optional[X]`
normalizes to `Union[X, None]` with origin `typing.Union` — so the
comparison is false for every annotation and the check is dead code. -/
def is_optional_type (field_type : PyType) : Bool :=
  field_type.originAttr == some PyOrigin.optionalForm

/-- `FieldService._is_list_type`: `origin is list`, true exactly for
`List[...]` annotations. -/
def is_list_type (field_type : PyType) : Bool :=
  field_type.originAttr == some PyOrigin.builtinList

/-- `FieldService._detect_relationship`, with the source's branch order:
the `_id`-suffix check first (with no condition on the type), then the
capitalized-class check, then the list-of-capitalized-class check. -/
def detect_relationship (field_name : String) (field_type : PyType) :
    Option RelationshipInfo :=
  if pyEndsWith field_name "_id" then
    let related_model := pyCapitalize (pyDropRight field_name 3)
    some { type := .FOREIGN_KEY
           related_model := related_model
           related_field := some "id"
           description := "Foreign key to " ++ related_model }
  else if field_type.hasName && headIsUpper field_type.typeName
      && !(primitiveNames.contains field_type.typeName) then
    some { type := .MANY_TO_ONE
           related_model := field_type.typeName
           description := "Relationship to " ++ field_type.typeName }
  else
    match field_type with
    | .listOf t =>
      if t.hasName && headIsUpper t.typeName then
        some { type := .ONE_TO_MANY
               related_model := t.typeName
               description := "One-to-many relationship with " ++ t.typeName }
      else none
    | _ => none

/-- `FieldService._create_validation_rules`: reads the nested pydantic
metadata when present; pydantic metadata always exposes the four inspected
attributes, so the `hasattr` guards of the source always pass. -/
def create_validation_rules (field_info : FieldInfoPy) : FieldValidation :=
  match field_info.field_info with
  | none => {}
  | some fe =>
    { required := fe.default.isNone
      max_length := fe.max_length
      min_value := fe.ge
      max_value := fe.le }

/-- The fixed description table of `FieldService._get_field_description`. -/
def descriptionsTable : List (String × String) :=
  [("id", "Unique identifier"),
   ("created_at", "Creation timestamp"),
   ("updated_at", "Last update timestamp"),
   ("is_deleted", "Soft delete flag"),
   ("name", "Item name"),
   ("title", "Item title"),
   ("description", "Item description"),
   ("email", "Email address"),
   ("password", "User password")]

/-- `FieldService._get_field_description`. -/
def get_field_description (field_name : String) : String :=
  match descriptionsTable.lookup field_name with
  | some d => d
  | none => pyTitle (underscoresToSpaces field_name)

/-- The default-value unwrapping step of `FieldService._parse_field`:
`if default_value and hasattr(default_value, 'arg'): default_value =
default_value.arg`. -/
def resolveDefault : Option PyVal → Option PyVal
  | none => none
  | some v => if v.truthy && v.hasArgAttr then v.argOf else some v

/-- `FieldService._parse_field`. -/
def parse_field (field_name : String) (field_type : PyType)
    (field_info : FieldInfoPy) : ModelField :=
  let base_type := get_base_type field_type
  let python_type := get_python_type_name field_type
  let relationship_info := detect_relationship field_name field_type
  let is_optional := is_optional_type field_type
  let is_list := is_list_type field_type
  let default_value := resolveDefault field_info.default
  let validation := create_validation_rules field_info
  { name := field_name
    type := base_type
    python_type := python_type
    is_required := !is_optional && default_value.isNone
    is_relationship := relationship_info.isSome
    is_list := is_list
    default_value := default_value
    validation := some validation
    relationship := relationship_info
    description := some (get_field_description field_name) }

/-- The internal-field skip of `FieldService.get_model_definition`. -/
def internalSkip (n : String) : Bool :=
  pyStartsWith n "_" || n == "metadata" || n == "registry"

/-- `FieldService.get_model_definition`. -/
def get_model_definition (mc : PyModelClass) : ModelDefinition :=
  let parsed := (mc.fields.filter (fun f => !internalSkip f.1)).map
    (fun f => parse_field f.1 f.2.1 f.2.2)
  { model_name := mc.name
    table_name := mc.tablename.getD (pyToLower mc.name ++ "s")
    fields := parsed
    relationships := parsed.filterMap
      (fun fd => if fd.is_relationship then fd.relationship else none) }

end FieldService

/-- One entry of the form layout emitted by
`FieldService._generate_form_layout`: the dict keys that are written
conditionally are modelled as `Option` fields. -/
structure FormFieldConfig where
  name : String
  type : String
  label : String
  required : Bool
  placeholder : String
  minLength : Option Int := none
  maxLength : Option Int := none
  minVal : Option Int := none
  maxVal : Option Int := none
  options : Option String := none
deriving DecidableEq

/-- One value of the frontend validation-rule map emitted by
`FieldService._generate_validation_rules`; `required` is `true` exactly
when the `'required': True` key is present. -/
structure FieldRules where
  required : Bool := false
  minLength : Option Int := none
  maxLength : Option Int := none
  minVal : Option Int := none
  maxVal : Option Int := none
  pattern : Option String := none
deriving DecidableEq

/-- Whether the modelled rule dict is the empty dict. -/
def FieldRules.isEmptyRules (r : FieldRules) : Bool :=
  !r.required && r.minLength.isNone && r.maxLength.isNone
    && r.minVal.isNone && r.maxVal.isNone && r.pattern.isNone

/-- Python truthiness of an optional integer (`None` and `0` are falsy). -/
def truthyOptInt : Option Int → Bool
  | none => false
  | some n => n != 0

/-- Python truthiness of an optional string (`None` and `''` are falsy). -/
def truthyOptStr : Option String → Bool
  | none => false
  | some s => s != ""

/-- `DynamicFormConfig` from `src/core/schemas/fields.py`. -/
structure DynamicFormConfig where
  model_name : String
  fields : List ModelField
  layout : List FormFieldConfig
  validation_rules : List (String × FieldRules)

namespace FieldService

/-- The `.value` string of a `FieldType` enum member. -/
def fieldTypeValue : FieldType → String
  | .STRING => "string"
  | .INTEGER => "integer"
  | .FLOAT => "float"
  | .BOOLEAN => "boolean"
  | .DATETIME => "datetime"
  | .TEXT => "text"
  | .JSON => "json"
  | .EMAIL => "email"
  | .URL => "url"
  | .UUID => "uuid"

/-- The internal names skipped by both form-layout and validation-rule
generation. -/
def formSkipNames : List String :=
  ["id", "created_at", "updated_at", "is_deleted"]

/-- The per-field body of `FieldService._generate_form_layout`: the base
config dict, the truthiness-guarded validation keys, and the
relationship-driven `select`/`multiselect` override. -/
def configForField (field : ModelField) : FormFieldConfig :=
  let base : FormFieldConfig :=
    { name := field.name
      type := fieldTypeValue field.type
      label := pyTitle (underscoresToSpaces field.name)
      required := field.is_required
      placeholder := "Enter " ++ underscoresToSpaces field.name }
  let withVal : FormFieldConfig :=
    match field.validation with
    | none => base
    | some v =>
      { base with
        minLength := if truthyOptInt v.min_length then v.min_length else none
        maxLength := if truthyOptInt v.max_length then v.max_length else none
        minVal := v.min_value
        maxVal := v.max_value }
  if field.is_relationship then
    match field.relationship with
    | some rel =>
      match rel.type with
      | .FOREIGN_KEY =>
        { withVal with
          type := "select"
          options := some ("/api/v1/" ++ pyToLower rel.related_model ++ "s") }
      | .ONE_TO_MANY =>
        { withVal with
          type := "multiselect"
          options := some ("/api/v1/" ++ pyToLower rel.related_model ++ "s") }
      | _ => withVal
    | none => withVal
  else withVal

/-- `FieldService._generate_form_layout`. -/
def generate_form_layout (fields : List ModelField) : List FormFieldConfig :=
  (fields.filter (fun f => !(formSkipNames.contains f.name))).map configForField

/-- The per-field rule dict built inside
`FieldService._generate_validation_rules`. -/
def rulesForField (field : ModelField) : FieldRules :=
  let r : FieldRules := { required := field.is_required }
  match field.validation with
  | none => r
  | some v =>
    { r with
      minLength := if truthyOptInt v.min_length then v.min_length else none
      maxLength := if truthyOptInt v.max_length then v.max_length else none
      minVal := v.min_value
      maxVal := v.max_value
      pattern := if truthyOptStr v.pattern then v.pattern else none }

/-- `FieldService._generate_validation_rules`: a field's entry is added to
the map only when its rule dict is non-empty. -/
def generate_validation_rules (fields : List ModelField) :
    List (String × FieldRules) :=
  (fields.filter (fun f => !(formSkipNames.contains f.name))).filterMap
    (fun f =>
      if (rulesForField f).isEmptyRules then none
      else some (f.name, rulesForField f))

/-- `FieldService.get_dynamic_form_config`. -/
def get_dynamic_form_config (mc : PyModelClass) : DynamicFormConfig :=
  let md := get_model_definition mc
  { model_name := md.model_name
    fields := md.fields
    layout := generate_form_layout md.fields
    validation_rules := generate_validation_rules md.fields }

end FieldService

/-- The relationship dict returned by `FieldParser._detect_relationship`
in `src/core/FieldParser.py`. -/
structure ParserRelInfo where
  type : String
  related_model : String
  relationship_type : String
  description : String
deriving DecidableEq

namespace FieldParser

/-- Case-insensitive removal of a literal pattern from the front of a
character list, returning the remainder on success. -/
def dropCaseless : List Char → List Char → Option (List Char)
  | [], rest => some rest
  | _ :: _, [] => none
  | p :: ps, c :: cs => if p.toLower == c.toLower then dropCaseless ps cs else none

/-- A character of the regex class `[a-zA-Z0-9_]`. -/
def isIdentChar (c : Char) : Bool :=
  (c.isAlpha && c.val < 128) || c.isDigit || c == '_'

/-- A character of the regex class `[a-zA-Z_]`. -/
def isIdentStart (c : Char) : Bool :=
  (c.isAlpha && c.val < 128) || c == '_'

/-- Models `re.match(word + "\x5c[([a-zA-Z_][a-zA-Z0-9_]*)\x5c]", s,
re.IGNORECASE)`, returning the captured group: the literal word and an
opening bracket (case-insensitively), a non-empty identifier run, then a
closing bracket; trailing input is allowed as `re.match` anchors only the
start. -/
def matchBracket (word : String) (s : String) : Option String :=
  match dropCaseless (word.data ++ ['[']) s.data with
  | none => none
  | some rest =>
    let identRun := rest.takeWhile isIdentChar
    match identRun, rest.drop identRun.length with
    | c :: _, ']' :: _ =>
      if isIdentStart c then some (String.mk identRun) else none
    | _, _ => none

/-- `FieldParser._detect_relationship` from `src/core/FieldParser.py`:
the foreign-key branch requires both the `_id` name suffix and a declared
type of `int`/`integer`; then the capitalized-type branch, then the
`list[...]` and `optional[...]` regex branches. Python raises on an empty
`field_type` in the second branch; the embedding treats it as no match. -/
def detect_relationship (field_name : String) (field_type : String) :
    Option ParserRelInfo :=
  if pyEndsWith field_name "_id" && ["int", "integer"].contains field_type then
    let related_model := pyCapitalize (pyDropRight field_name 3)
    some { type := "ForeignKey"
           related_model := related_model
           relationship_type := "ManyToOne"
           description := "Foreign key to " ++ related_model }
  else if headIsUpper field_type && !(pyStartsWith field_type "List[")
      && !(pyStartsWith field_type "Optional[") then
    some { type := "ModelReference"
           related_model := field_type
           relationship_type := "ManyToOne"
           description := "Relationship to " ++ field_type }
  else
    match matchBracket "list" field_type with
    | some m =>
      some { type := "OneToMany"
             related_model := m
             relationship_type := "OneToMany"
             description := "One-to-many relationship with " ++ m }
    | none =>
      match matchBracket "optional" field_type with
      | some m =>
        some { type := "ManyToOne"
               related_model := m
               relationship_type := "ManyToOne"
               description := "Many-to-one relationship with " ++ m }
      | none => none

end FieldParser

/-- A stored attribute value. -/
inductive Val where
  | vInt (n : Int)
  | vBool (b : Bool)
  | vStr (s : String)
deriving DecidableEq

/-- The declared attribute surface of the entity class a repository is
parameterized by: `attrNames` lists the declared attribute names other
than the identifier `id`. `hasattr(self.model, f)` is modelled by
membership. -/
structure ModelDecl where
  attrNames : List String
deriving DecidableEq

/-- Python `hasattr(self.model, f)`. -/
def hasattrModel (m : ModelDecl) (f : String) : Bool :=
  f == "id" || m.attrNames.contains f

/-- A stored record: the identifier plus the remaining attributes as an
association list (first occurrence wins, as for Python object attributes). -/
structure Rec where
  id : Int
  attrs : List (String × Val)
deriving DecidableEq

/-- Python `getattr(record, f)` / the SQL column of `f` for this record. -/
def getattrRec (r : Rec) (f : String) : Option Val :=
  if f == "id" then some (Val.vInt r.id) else r.attrs.lookup f

/-- Python `hasattr(db_obj, f)` on a record instance. -/
def hasattrRec (r : Rec) (f : String) : Bool :=
  f == "id" || (r.attrs.lookup f).isSome

/-- Whether the record's soft-delete flag is set. -/
def isFlagSet (r : Rec) : Bool :=
  r.attrs.lookup "is_deleted" == some (Val.vBool true)

/-- The storage state seen through one repository: the stored records plus
an instrumentation counter of scoped sessions acquired so far (each
operation that enters `async with self.get_session()` increments it). -/
structure DB where
  recs : List Rec
  sessions : Nat := 0
deriving DecidableEq

/-- `setattr` on the attribute list: overwrite the first binding of the
key, or append one when absent. -/
def setAttrList : List (String × Val) → String → Val → List (String × Val)
  | [], k, v => [(k, v)]
  | p :: rest, k, v =>
    if p.1 == k then (k, v) :: rest else p :: setAttrList rest k v

/-- `setattr(db_obj, k, v)` on a record. -/
def setAttrRec (r : Rec) (k : String) (v : Val) : Rec :=
  { r with attrs := setAttrList r.attrs k v }

/-- Persist an updated record: replace the first stored record carrying the
given id (the one `db.get` returned). -/
def replaceFirst : List Rec → Int → Rec → List Rec
  | [], _, _ => []
  | x :: xs, i, r => if x.id == i then r :: xs else x :: replaceFirst xs i r

/-- `db.delete` of the record `db.get` returned: remove the first stored
record carrying the given id. -/
def removeFirst : List Rec → Int → List Rec
  | [], _ => []
  | x :: xs, i => if x.id == i then xs else x :: removeFirst xs i

/-- `RepositoryError` from `src/core/bases/base_repository.py`: a single
exception class carrying only a message. -/
structure RepoErr where
  msg : String
deriving DecidableEq

/-- The storage-engine failures the repository distinguishes:
`IntegrityError` versus any other `SQLAlchemyError`, each carrying the
engine's message. -/
inductive DBError where
  | integrity (msg : String)
  | other (msg : String)
deriving DecidableEq

/-- The engine message wrapped by the translation. -/
def DBError.causeMsg : DBError → String
  | .integrity m => m
  | .other m => m

/-- Errors surfaced by `soft_delete`/`restore`: the `AttributeError`
raised when the entity lacks the soft-delete flag (a configuration error),
or a translated `RepositoryError`. -/
inductive OpError where
  | attrError (msg : String)
  | repoError (e : RepoErr)
deriving DecidableEq

namespace BaseRepository

/-- `BaseRepository._handle_db_error`: translate an engine failure into a
`RepositoryError` whose message names the operation and embeds the cause;
integrity failures get a distinct message prefix but the same error type. -/
def handle_db_error (error : DBError) (operation : String) : RepoErr :=
  match error with
  | .integrity m =>
    ⟨"Database integrity error during " ++ operation ++ ": " ++ m⟩
  | .other m =>
    ⟨"Database error during " ++ operation ++ ": " ++ m⟩

/-- The soft-delete conjunct of `BaseRepository._build_select_stmt`: when
`include_deleted` is false and the model declares `is_deleted`, only
records whose flag column equals `False` pass. -/
def softDeleteOk (m : ModelDecl) (include_deleted : Bool) (r : Rec) : Bool :=
  include_deleted || !(hasattrModel m "is_deleted")
    || (getattrRec r "is_deleted" == some (Val.vBool false))

/-- One equality filter of `_build_select_stmt`: a key the model does not
declare is skipped (no condition added); a declared key must match. -/
def matchesFilter (m : ModelDecl) (r : Rec) (f : String × Val) : Bool :=
  !(hasattrModel m f.1) || (getattrRec r f.1 == some f.2)

/-- The record set selected by `BaseRepository._build_select_stmt`. -/
def selectRecs (m : ModelDecl) (include_deleted : Bool)
    (filters : List (String × Val)) (recs : List Rec) : List Rec :=
  recs.filter (fun r => softDeleteOk m include_deleted r
    && filters.all (matchesFilter m r))

/-- `BaseRepository.get`. -/
def get (m : ModelDecl) (db : DB) (item_id : Int) (include_deleted : Bool)
    (filters : List (String × Val)) : Option Rec :=
  ((selectRecs m include_deleted filters db.recs).filter
    (fun r => r.id == item_id)).head?

/-- `BaseRepository.get_one`. Its Python signature is `get_one(**filters)`;
an `include_deleted` keyword in the call flows through to the
`include_deleted` parameter of `_build_select_stmt` (default `False`),
modelled here as an explicit argument. -/
def get_one (m : ModelDecl) (db : DB) (include_deleted : Bool)
    (filters : List (String × Val)) : Option Rec :=
  (selectRecs m include_deleted filters db.recs).head?

/-- `BaseRepository.get_many`. -/
def get_many (m : ModelDecl) (db : DB) (skip limit : Nat)
    (include_deleted : Bool) (filters : List (String × Val)) : List Rec :=
  ((selectRecs m include_deleted filters db.recs).drop skip).take limit

/-- `BaseRepository.count`. -/
def count (m : ModelDecl) (db : DB) (include_deleted : Bool)
    (filters : List (String × Val)) : Nat :=
  (selectRecs m include_deleted filters db.recs).length

/-- `BaseRepository.exists` (named `existsItem` as `exists` is reserved):
a dedicated statement selecting by id with only the soft-delete filter. -/
def existsItem (m : ModelDecl) (db : DB) (item_id : Int)
    (include_deleted : Bool) : Bool :=
  ((db.recs.filter (fun r => r.id == item_id
    && softDeleteOk m include_deleted r)).head?).isSome

/-- The `page` clamp of `BaseRepository.list`. -/
def normPage (page : Int) : Int :=
  if page < 1 then 1 else page

/-- The `per_page` reset of `BaseRepository.list`. -/
def normPerPage (per_page : Int) : Int :=
  if per_page < 1 || per_page > 100 then 10 else per_page

/-- `PaginatedResponse` from `src/core/response/schemas.py`, as populated
by `BaseRepository.list`. -/
structure PaginatedResponse where
  success : Bool
  data : List Rec
  total : Nat
  page : Int
  per_page : Int
  pages : Int
  message : String
deriving DecidableEq

/-- `BaseRepository.list`: clamp the page, reset an out-of-range
`per_page`, count the filtered set, fetch the `offset/limit` window, and
derive `pages` by ceiling division (the normalized values are positive, so
Python floor division agrees with truncation). -/
def list (m : ModelDecl) (db : DB) (page per_page : Int)
    (include_deleted : Bool) (filters : List (String × Val)) :
    PaginatedResponse :=
  let page := normPage page
  let per_page := normPerPage per_page
  let offset := (page - 1) * per_page
  let matched := selectRecs m include_deleted filters db.recs
  let total := matched.length
  let items := (matched.drop offset.toNat).take per_page.toNat
  let pages := (total + per_page.toNat - 1) / per_page.toNat
  { success := true
    data := items
    total := total
    page := page
    per_page := per_page
    pages := (pages : Int)
    message := "Items retrieved successfully" }

/-- The engine-generated id for a newly inserted record. -/
def freshId (db : DB) : Int :=
  (db.recs.map Rec.id).foldl max 0 + 1

/-- `BaseRepository.create`. The `fault` argument injects a storage-engine
failure inside the session (at the transactional write); the source then
rolls back and translates through `_handle_db_error`, so the stored
records are the original ones. -/
def create (m : ModelDecl) (db : DB) (obj_in : List (String × Val))
    (fault : Option DBError) : DB × Except RepoErr Rec :=
  let db1 : DB := { db with sessions := db.sessions + 1 }
  match fault with
  | some e => (db1, .error (handle_db_error e "create"))
  | none =>
    let r : Rec := { id := freshId db, attrs := obj_in }
    ({ db1 with recs := db.recs ++ [r] }, .ok r)

/-- `BaseRepository.create_many`: all inserts commit as one unit; a
failure rolls the whole unit back. -/
def create_many (m : ModelDecl) (db : DB)
    (objects_in : List (List (String × Val))) (fault : Option DBError) :
    DB × Except RepoErr (List Rec) :=
  let db1 : DB := { db with sessions := db.sessions + 1 }
  match fault with
  | some e => (db1, .error (handle_db_error e "create_many"))
  | none =>
    let newRecs := objects_in.enum.map
      (fun p => ({ id := freshId db + (p.1 : Int), attrs := p.2 } : Rec))
    ({ db1 with recs := db.recs ++ newRecs }, .ok newRecs)

/-- The update loop of `BaseRepository.update`: each pair is applied only
when the fetched instance has the attribute and the key is not `id`. -/
def applyUpdateData (r : Rec) (update_data : List (String × Val)) : Rec :=
  update_data.foldl
    (fun acc p =>
      if hasattrRec acc p.1 && p.1 != "id" then setAttrRec acc p.1 p.2
      else acc) r

/-- `BaseRepository.update`: strip the `id` key, reject an empty effective
change-set before any session is acquired, fetch by primary key
(`db.get`, which ignores the soft-delete filter), apply the matching
attributes, commit. -/
def update (m : ModelDecl) (db : DB) (item_id : Int)
    (obj_in : List (String × Val)) (fault : Option DBError) :
    DB × Except RepoErr (Option Rec) :=
  let update_data := obj_in.filter (fun p => p.1 != "id")
  if update_data.isEmpty then
    (db, .error ⟨"No data provided for update"⟩)
  else
    let db1 : DB := { db with sessions := db.sessions + 1 }
    match fault with
    | some e => (db1, .error (handle_db_error e "update"))
    | none =>
      match db.recs.find? (fun r => r.id == item_id) with
      | none => (db1, .ok none)
      | some r =>
        let r' := applyUpdateData r update_data
        ({ db1 with recs := replaceFirst db.recs item_id r' }, .ok (some r'))

/-- `BaseRepository.soft_delete`: fails fast with `AttributeError` when the
entity declares no `is_deleted` attribute (before any session), returns
`False` when the id matches nothing, otherwise sets the flag. -/
def soft_delete (m : ModelDecl) (db : DB) (item_id : Int)
    (fault : Option DBError) : DB × Except OpError Bool :=
  if !(hasattrModel m "is_deleted") then
    (db, .error (.attrError "Model must have \x27is_deleted\x27 field for soft delete"))
  else
    let db1 : DB := { db with sessions := db.sessions + 1 }
    match fault with
    | some e => (db1, .error (.repoError (handle_db_error e "soft_delete")))
    | none =>
      match db.recs.find? (fun r => r.id == item_id) with
      | none => (db1, .ok false)
      | some r =>
        ({ db1 with
            recs := replaceFirst db.recs item_id
              (setAttrRec r "is_deleted" (Val.vBool true)) }, .ok true)

/-- `BaseRepository.restore`: the inverse of `soft_delete`. -/
def restore (m : ModelDecl) (db : DB) (item_id : Int)
    (fault : Option DBError) : DB × Except OpError Bool :=
  if !(hasattrModel m "is_deleted") then
    (db, .error (.attrError "Model must have \x27is_deleted\x27 field for restore"))
  else
    let db1 : DB := { db with sessions := db.sessions + 1 }
    match fault with
    | some e => (db1, .error (.repoError (handle_db_error e "restore")))
    | none =>
      match db.recs.find? (fun r => r.id == item_id) with
      | none => (db1, .ok false)
      | some r =>
        ({ db1 with
            recs := replaceFirst db.recs item_id
              (setAttrRec r "is_deleted" (Val.vBool false)) }, .ok true)

/-- `BaseRepository.force_delete`: fetch by primary key (no soft-delete
filter) and permanently remove the record. -/
def force_delete (m : ModelDecl) (db : DB) (item_id : Int)
    (fault : Option DBError) : DB × Except RepoErr Bool :=
  let db1 : DB := { db with sessions := db.sessions + 1 }
  match fault with
  | some e => (db1, .error (handle_db_error e "force_delete"))
  | none =>
    match db.recs.find? (fun r => r.id == item_id) with
    | none => (db1, .ok false)
    | some _ => ({ db1 with recs := removeFirst db.recs item_id }, .ok true)

/-- `BaseRepository.force_delete_many`: remove every record whose id is in
the list, in one unit. -/
def force_delete_many (m : ModelDecl) (db : DB) (item_ids : List Int)
    (fault : Option DBError) : DB × Except RepoErr Bool :=
  let db1 : DB := { db with sessions := db.sessions + 1 }
  match fault with
  | some e => (db1, .error (handle_db_error e "force_delete_many"))
  | none =>
    ({ db1 with recs := db.recs.filter (fun r => !(item_ids.contains r.id)) },
      .ok true)

end BaseRepository

/-- The entity of the specification's model-definition example: fields
`{id, title : str, author_id : int, created_at, updated_at, is_deleted}`. -/
def specEntity : PyModelClass :=
  { name := "Post"
    tablename := some "posts"
    fields := [
      ("id", PyType.optional (PyType.base "int"), {}),
      ("title", PyType.base "str", {}),
      ("author_id", PyType.base "int", {}),
      ("created_at", PyType.base "datetime", {}),
      ("updated_at", PyType.optional (PyType.base "datetime"), {}),
      ("is_deleted", PyType.base "bool",
        { default := some (PyVal.vBool false) })] }

/-- A small concrete entity declaration used to instantiate the repository
theorems: attributes `title` and a declared soft-delete flag. -/
def wModel : ModelDecl := ⟨["title", "is_deleted"]⟩

/-- A live record of the concrete store. -/
def wAlive : Rec := ⟨1, [("title", Val.vStr "a"), ("is_deleted", Val.vBool false)]⟩

/-- A soft-deleted record of the concrete store. -/
def wDead : Rec := ⟨2, [("title", Val.vStr "b"), ("is_deleted", Val.vBool true)]⟩

/-- The concrete store holding one live and one soft-deleted record. -/
def wDb : DB := ⟨[wAlive, wDead], 0⟩

/-- The name of a generated form-field config is the field's name. -/
theorem configForField_name (f : ModelField) :
    (FieldService.configForField f).name = f.name := by
  unfold FieldService.configForField
  repeat' split
  all_goals rfl

/-- C1: counterexample to the claim as stated. The attribute `author_id`
declared with type `str` has base type `STRING`, not an integer, yet
`FieldService._detect_relationship` still classifies it as a `foreign_key`
relationship to `Author`: the runtime introspector checks only the `_id`
name suffix and never inspects the type. -/
theorem c1_counterexample :
    FieldService.get_base_type (PyType.base "str") ≠ FieldType.INTEGER ∧
    (FieldService.detect_relationship "author_id" (PyType.base "str")).map
        (fun r => (r.type, r.related_model))
      = some (RelationshipType.FOREIGN_KEY, "Author") :=
  ⟨by decide, rfl⟩

/-- C1 (amended): in `FieldService._detect_relationship` any attribute
whose name ends with `_id` is classified as a `foreign_key` relationship to
the stripped, capitalized name — regardless of its base type — and this
takes precedence over the capitalized-type-name rule; an attribute whose
name does not end with `_id` is never classified `foreign_key` by it. In
the string-based `FieldParser._detect_relationship`, the rule holds exactly
as the claim states it: the foreign-key branch additionally requires the
declared type to be `int` or `integer`. -/
theorem c1_foreign_key_rule :
    (∀ (name : String) (t : PyType), pyEndsWith name "_id" = true →
      FieldService.detect_relationship name t =
        some { type := RelationshipType.FOREIGN_KEY
               related_model := pyCapitalize (pyDropRight name 3)
               related_field := some "id"
               description :=
                 "Foreign key to " ++ pyCapitalize (pyDropRight name 3) }) ∧
    (∀ (name : String) (t : PyType) (r : RelationshipInfo),
      pyEndsWith name "_id" = false →
      FieldService.detect_relationship name t = some r →
      r.type ≠ RelationshipType.FOREIGN_KEY) ∧
    (∀ (name ty : String), pyEndsWith name "_id" = true →
      ty = "int" ∨ ty = "integer" →
      FieldParser.detect_relationship name ty =
        some { type := "ForeignKey"
               related_model := pyCapitalize (pyDropRight name 3)
               relationship_type := "ManyToOne"
               description :=
                 "Foreign key to " ++ pyCapitalize (pyDropRight name 3) }) ∧
    (∀ (name ty : String) (r : ParserRelInfo),
      (pyEndsWith name "_id" && ["int", "integer"].contains ty) = false →
      FieldParser.detect_relationship name ty = some r →
      r.type ≠ "ForeignKey") := by
  refine ⟨?_, ?_, ?_, ?_⟩
  · intro name t h
    simp [FieldService.detect_relationship, h]
  · intro name t r h hr
    unfold FieldService.detect_relationship at hr
    rw [h] at hr
    rw [if_neg (show ¬(false = true) from by decide)] at hr
    by_cases h2 : ((t.hasName && headIsUpper t.typeName)
        && !(FieldService.primitiveNames.contains t.typeName)) = true
    · rw [if_pos h2] at hr
      obtain rfl := (Option.some.inj hr).symm
      exact fun hc => RelationshipType.noConfusion hc
    · rw [if_neg h2] at hr
      split at hr
      all_goals try exact Option.noConfusion hr
      rename_i t'
      by_cases h3 : (PyType.hasName t' && headIsUpper (PyType.typeName t'))
          = true
      · rw [if_pos h3] at hr
        obtain rfl := (Option.some.inj hr).symm
        exact fun hc => RelationshipType.noConfusion hc
      · rw [if_neg h3] at hr
        exact Option.noConfusion hr
  · intro name ty h hty
    unfold FieldParser.detect_relationship
    rcases hty with rfl | rfl
    · rw [h, if_pos (show (true && (["int", "integer"].contains "int"))
        = true from by decide)]
    · rw [h, if_pos (show (true && (["int", "integer"].contains "integer"))
        = true from by decide)]
  · intro name ty r h hr
    unfold FieldParser.detect_relationship at hr
    rw [h] at hr
    rw [if_neg (show ¬(false = true) from by decide)] at hr
    by_cases h2 : ((headIsUpper ty && !(pyStartsWith ty "List["))
        && !(pyStartsWith ty "Optional[")) = true
    · rw [if_pos h2] at hr
      obtain rfl := (Option.some.inj hr).symm
      intro hc
      exact absurd (show ("ModelReference" : String) = "ForeignKey" from hc)
        (by decide)
    · rw [if_neg h2] at hr
      split at hr
      · obtain rfl := (Option.some.inj hr).symm
        intro hc
        exact absurd (show ("OneToMany" : String) = "ForeignKey" from hc)
          (by decide)
      · split at hr
        · obtain rfl := (Option.some.inj hr).symm
          intro hc
          exact absurd (show ("ManyToOne" : String) = "ForeignKey" from hc)
            (by decide)
        · exact Option.noConfusion hr

/-- C1 witness: the amended rule applied at `author_id : str` (classified
`foreign_key` by `FieldService` despite the non-integer type), at
`tags : List[Tag]` (not `_id`-suffixed, hence not `foreign_key`), at
`author_id : integer` for `FieldParser`, and at `author_id : str` for
`FieldParser` (no foreign key there). -/
theorem c1_foreign_key_rule_witness :
    FieldService.detect_relationship "author_id" (PyType.base "str") =
      some { type := RelationshipType.FOREIGN_KEY
             related_model := "Author"
             related_field := some "id"
             description := "Foreign key to Author" } ∧
    ({ type := RelationshipType.ONE_TO_MANY
       related_model := "Tag"
       related_field := none
       description := "One-to-many relationship with Tag" } :
        RelationshipInfo).type ≠ RelationshipType.FOREIGN_KEY ∧
    FieldParser.detect_relationship "author_id" "integer" =
      some { type := "ForeignKey"
             related_model := "Author"
             relationship_type := "ManyToOne"
             description := "Foreign key to Author" } ∧
    ({ type := "ModelReference"
       related_model := "Author"
       relationship_type := "ManyToOne"
       description := "Relationship to Author" } : ParserRelInfo).type
      ≠ "ForeignKey" :=
  ⟨c1_foreign_key_rule.1 "author_id" (PyType.base "str") (by decide),
   c1_foreign_key_rule.2.1 "tags" (PyType.listOf (PyType.base "Tag"))
     { type := RelationshipType.ONE_TO_MANY
       related_model := "Tag"
       related_field := none
       description := "One-to-many relationship with Tag" }
     (by decide) (by decide),
   c1_foreign_key_rule.2.2.1 "author_id" "integer" (by decide) (Or.inr rfl),
   c1_foreign_key_rule.2.2.2 "Author_id" "Author"
     { type := "ModelReference"
       related_model := "Author"
       relationship_type := "ManyToOne"
       description := "Relationship to Author" }
     (by decide) (by decide)⟩

/-- C4: evaluation of the code at the claim's failing input. The claim —
and the code's evident intent (`_is_optional_type`'s docstring, the
dedicated `Handle Optional[Type]` branch) — say `bio: optional[string]` is
optional and therefore not required; but `_is_optional_type` compares the
annotation's origin against the `Optional` form, which the origin of
`Optional[str]` (`typing.Union`) never is, so the code answers
`is_optional = false` and classifies `bio` as required. The Optional-unwrap
branch of `_get_base_type` is likewise dead: `Optional[int]` maps to
`STRING`, not `INTEGER` (on `Optional[str]` the `STRING` outcome survives
only by coincidence). The `age: integer` half of the claim does hold, and
the required flag equals `not optional and no resolved default` with the
dead optionality check in place. -/
theorem c4_bio_optional_misclassified :
    FieldService.is_optional_type (PyType.optional (PyType.base "str"))
      = false ∧
    (FieldService.parse_field "bio" (PyType.optional (PyType.base "str"))
      {}).is_required = true ∧
    FieldService.get_base_type (PyType.optional (PyType.base "int"))
      = FieldType.STRING ∧
    FieldService.get_base_type (PyType.optional (PyType.base "str"))
      = FieldType.STRING ∧
    (FieldService.parse_field "age" (PyType.base "int") {}).is_required
      = true ∧
    (∀ (name : String) (t : PyType) (fi : FieldInfoPy),
      (FieldService.parse_field name t fi).is_required =
        (!FieldService.is_optional_type t
          && (FieldService.resolveDefault fi.default).isNone)) :=
  ⟨rfl, rfl, by decide, by decide, rfl, fun _ _ _ => rfl⟩

/-- C8: the generated form layout and validation-rule map never carry the
internal fields `id`, `created_at`, `updated_at`, `is_deleted`; every entry
of the validation-rule map is a non-empty rule set (a field with no
constraints is omitted entirely); and on the specification's example entity
the generated layout and rule map contain exactly `title` and
`author_id`. -/
theorem c8_form_config_excludes_internal :
    (∀ (fields : List ModelField) (cfg : FormFieldConfig),
      cfg ∈ FieldService.generate_form_layout fields →
      FieldService.formSkipNames.contains cfg.name = false) ∧
    (∀ (fields : List ModelField) (p : String × FieldRules),
      p ∈ FieldService.generate_validation_rules fields →
      FieldService.formSkipNames.contains p.1 = false ∧
        p.2.isEmptyRules = false) ∧
    (FieldService.generate_form_layout
        (FieldService.get_model_definition specEntity).fields).map
      FormFieldConfig.name = ["title", "author_id"] ∧
    (FieldService.generate_validation_rules
        (FieldService.get_model_definition specEntity).fields).map
      Prod.fst = ["title", "author_id"] := by
  refine ⟨?_, ?_, by decide, by decide⟩
  · intro fields cfg hcfg
    simp only [FieldService.generate_form_layout, List.mem_map,
      List.mem_filter] at hcfg
    obtain ⟨f, ⟨hfmem, hfskip⟩, rfl⟩ := hcfg
    rw [configForField_name]
    simpa using hfskip
  · intro fields p hp
    simp only [FieldService.generate_validation_rules, List.mem_filterMap,
      List.mem_filter] at hp
    obtain ⟨f, ⟨hfmem, hfskip⟩, hif⟩ := hp
    by_cases hE : (FieldService.rulesForField f).isEmptyRules = true
    · rw [if_pos hE] at hif
      exact Option.noConfusion hif
    · rw [if_neg hE] at hif
      obtain rfl := (Option.some.inj hif).symm
      exact ⟨by simpa using hfskip, by simpa using hE⟩

/-- C8 witness: the exclusion facts applied to the layout entry and rule
entry generated for a concrete `title : str` field. -/
theorem c8_form_config_excludes_internal_witness :
    FieldService.formSkipNames.contains
      (FieldService.configForField
        (FieldService.parse_field "title" (PyType.base "str") {})).name
      = false ∧
    FieldService.formSkipNames.contains "title" = false ∧
    (FieldService.rulesForField
      (FieldService.parse_field "title" (PyType.base "str") {})).isEmptyRules
      = false :=
  ⟨c8_form_config_excludes_internal.1
      [FieldService.parse_field "title" (PyType.base "str") {}]
      (FieldService.configForField
        (FieldService.parse_field "title" (PyType.base "str") {}))
      (by decide),
   (c8_form_config_excludes_internal.2.1
      [FieldService.parse_field "title" (PyType.base "str") {}]
      ("title",
        FieldService.rulesForField
          (FieldService.parse_field "title" (PyType.base "str") {}))
      (by decide)).1,
   (c8_form_config_excludes_internal.2.1
      [FieldService.parse_field "title" (PyType.base "str") {}]
      ("title",
        FieldService.rulesForField
          (FieldService.parse_field "title" (PyType.base "str") {}))
      (by decide)).2⟩

/-- Writing an attribute makes it readable back. -/
theorem lookup_setAttrList_self (l : List (String × Val)) (k : String)
    (v : Val) : (setAttrList l k v).lookup k = some v := by
  induction l with
  | nil => simp [setAttrList]
  | cons p rest ih =>
    obtain ⟨a, b⟩ := p
    by_cases h : a = k
    · subst h
      simp [setAttrList]
    · have h1 : (a == k) = false := by simp [h]
      have h2 : (k == a) = false := by simp [Ne.symm h]
      simp [setAttrList, List.lookup, h1, h2, ih]

/-- Writing the value an attribute already holds changes nothing. -/
theorem setAttrList_of_lookup_eq (l : List (String × Val)) (k : String)
    (v : Val) (h : l.lookup k = some v) : setAttrList l k v = l := by
  induction l with
  | nil => simp [List.lookup] at h
  | cons p rest ih =>
    obtain ⟨a, b⟩ := p
    by_cases hk : a = k
    · subst hk
      simp [List.lookup] at h
      simp [setAttrList, h]
    · have h1 : (a == k) = false := by simp [hk]
      have h2 : (k == a) = false := by simp [Ne.symm hk]
      simp only [List.lookup, h2] at h
      simp [setAttrList, h1, ih h]

/-- With the written key already present, writing preserves which keys are
readable. -/
theorem lookup_setAttrList_isSome (l : List (String × Val)) (k' : String)
    (v' : Val) (k : String) (h : (l.lookup k').isSome = true) :
    ((setAttrList l k' v').lookup k).isSome = (l.lookup k).isSome := by
  induction l with
  | nil => simp [List.lookup] at h
  | cons p rest ih =>
    obtain ⟨a, b⟩ := p
    by_cases hp : a = k'
    · subst hp
      by_cases hk : k = a
      · subst hk
        simp [setAttrList, List.lookup]
      · have h2 : (k == a) = false := by simp [hk]
        simp [setAttrList, List.lookup, h2]
    · have hp1 : (a == k') = false := by simp [hp]
      have hp2 : (k' == a) = false := by simp [Ne.symm hp]
      simp only [List.lookup, hp2] at h
      by_cases hk : k = a
      · subst hk
        simp [setAttrList, List.lookup, hp1]
      · have hk2 : (k == a) = false := by simp [hk]
        simp [setAttrList, List.lookup, hp1, hk2, ih h]

/-- Replacing the found record by itself is the identity. -/
theorem replaceFirst_of_find? (l : List Rec) (i : Int) (r : Rec)
    (h : l.find? (fun x => x.id == i) = some r) : replaceFirst l i r = l := by
  induction l with
  | nil => simp [List.find?] at h
  | cons x xs ih =>
    by_cases hx : x.id = i
    · rw [List.find?_cons_of_pos _ (by simp [hx])] at h
      obtain rfl := Option.some.inj h
      simp [replaceFirst, hx]
    · rw [List.find?_cons_of_neg _ (by simp [hx])] at h
      simp [replaceFirst, hx, ih h]

/-- After replacing the first record with a given id by a record carrying
the same id, the search finds the replacement. -/
theorem find?_replaceFirst (l : List Rec) (i : Int) (r r' : Rec)
    (h : l.find? (fun x => x.id == i) = some r) (h' : (r'.id == i) = true) :
    (replaceFirst l i r').find? (fun x => x.id == i) = some r' := by
  induction l with
  | nil => simp [List.find?] at h
  | cons x xs ih =>
    by_cases hx : x.id = i
    · simp only [replaceFirst, show (x.id == i) = true from by simp [hx],
        if_true]
      exact List.find?_cons_of_pos xs h'
    · rw [List.find?_cons_of_neg _ (by simp [hx])] at h
      simp only [replaceFirst, show (x.id == i) = false from by simp [hx],
        Bool.false_eq_true, if_false]
      rw [List.find?_cons_of_neg _ (by simp [hx])]
      exact ih h

/-- Removing the first record with a given id drops the head of the
id-filtered list. -/
theorem filter_removeFirst (l : List Rec) (i : Int) :
    (removeFirst l i).filter (fun x => x.id == i)
      = ((l.filter (fun x => x.id == i)).tail) := by
  induction l with
  | nil => simp [removeFirst]
  | cons x xs ih =>
    by_cases hx : x.id = i
    · simp [removeFirst, hx, List.filter_cons]
    · simp [removeFirst, show (x.id == i) = false from by simp [hx],
        List.filter_cons, ih]

/-- The normalized page size is at least one. -/
theorem normPerPage_pos (pp : Int) : 1 ≤ BaseRepository.normPerPage pp := by
  unfold BaseRepository.normPerPage
  split
  · omega
  · rename_i h
    simp only [Bool.or_eq_true, decide_eq_true_eq] at h
    omega

/-- C2: `BaseRepository.list` clamps `page < 1` to 1, resets `per_page`
outside `[1, 100]` to 10, returns at most `per_page` records, computes
`pages` as the ceiling of `total / per_page`, and fetches the window
starting at offset `(page - 1) * per_page` over the filtered record set. -/
theorem c2_list_pagination :
    (∀ page : Int, page < 1 → BaseRepository.normPage page = 1) ∧
    (∀ per_page : Int, per_page < 1 ∨ per_page > 100 →
      BaseRepository.normPerPage per_page = 10) ∧
    (∀ (m : ModelDecl) (db : DB) (page per_page : Int) (inc : Bool)
        (fl : List (String × Val)),
      (BaseRepository.list m db page per_page inc fl).page
          = BaseRepository.normPage page ∧
      (BaseRepository.list m db page per_page inc fl).per_page
          = BaseRepository.normPerPage per_page ∧
      ((BaseRepository.list m db page per_page inc fl).data.length : Int)
          ≤ BaseRepository.normPerPage per_page ∧
      (BaseRepository.list m db page per_page inc fl).pages
          = (((BaseRepository.list m db page per_page inc fl).total
              ⌈/⌉ (BaseRepository.normPerPage per_page).toNat : Nat) : Int) ∧
      (BaseRepository.list m db page per_page inc fl).data
          = ((BaseRepository.selectRecs m inc fl db.recs).drop
              ((BaseRepository.normPage page - 1)
                * BaseRepository.normPerPage per_page).toNat).take
              (BaseRepository.normPerPage per_page).toNat) := by
  refine ⟨?_, ?_, ?_⟩
  · intro page h
    exact if_pos h
  · intro per_page h
    unfold BaseRepository.normPerPage
    rcases h with h | h <;> rw [if_pos (by simp [h])]
  · intro m db page per_page inc fl
    refine ⟨rfl, rfl, ?_, rfl, rfl⟩
    have h0 : (BaseRepository.list m db page per_page inc fl).data.length
        ≤ (BaseRepository.normPerPage per_page).toNat := by
      simp only [BaseRepository.list]
      rw [List.length_take]
      exact min_le_left _ _
    have hpos := normPerPage_pos per_page
    calc ((BaseRepository.list m db page per_page inc fl).data.length : Int)
        ≤ ((BaseRepository.normPerPage per_page).toNat : Int) :=
          Int.ofNat_le.mpr h0
      _ = BaseRepository.normPerPage per_page :=
          Int.toNat_of_nonneg (by omega)

/-- C2 witness: the clamp at page 0 and -7, the reset at the exact
boundaries 0, 101 and at a negative page size, and the window bound on the
concrete store. -/
theorem c2_list_pagination_witness :
    BaseRepository.normPage 0 = 1 ∧
    BaseRepository.normPage (-7) = 1 ∧
    BaseRepository.normPerPage 0 = 10 ∧
    BaseRepository.normPerPage 101 = 10 ∧
    BaseRepository.normPerPage (-5) = 10 ∧
    ((BaseRepository.list wModel wDb 1 1 true []).data.length : Int)
      ≤ BaseRepository.normPerPage 1 :=
  ⟨c2_list_pagination.1 0 (by norm_num),
   c2_list_pagination.1 (-7) (by norm_num),
   c2_list_pagination.2.1 0 (Or.inl (by norm_num)),
   c2_list_pagination.2.1 101 (Or.inr (by norm_num)),
   c2_list_pagination.2.1 (-5) (Or.inl (by norm_num)),
   (c2_list_pagination.2.2 wModel wDb 1 1 true []).2.2.1⟩

/-- C5: an update whose effective change-set is empty once the `id` key is
stripped fails with the validation-message `RepositoryError` and returns
the store untouched — the session counter is not incremented, so no session
was acquired and no record was read or modified. -/
theorem c5_update_empty_changeset :
    ∀ (m : ModelDecl) (db : DB) (item_id : Int)
      (obj_in : List (String × Val)) (fault : Option DBError),
      (obj_in.filter (fun p => p.1 != "id")).isEmpty = true →
      BaseRepository.update m db item_id obj_in fault =
        (db, .error ⟨"No data provided for update"⟩) := by
  intro m db item_id obj_in fault h
  simp [BaseRepository.update, h]

/-- C5 witness: an update carrying only the `id` key fails before touching
the concrete store. -/
theorem c5_update_empty_changeset_witness :
    BaseRepository.update wModel wDb 1 [("id", Val.vInt 9)] none =
      (wDb, .error ⟨"No data provided for update"⟩) :=
  c5_update_empty_changeset wModel wDb 1 [("id", Val.vInt 9)] none (by decide)

/-- C6: on an id matching no stored record, `update` (with a non-empty
change-set) returns the ok-absent result, and `soft_delete`, `restore`
(on an entity declaring the flag) and `force_delete` return `ok false`;
none of them surfaces an error. -/
theorem c6_missing_id_not_found :
    ∀ (m : ModelDecl) (db : DB) (item_id : Int)
      (obj_in : List (String × Val)),
      db.recs.all (fun r => !(r.id == item_id)) = true →
      ((obj_in.filter (fun p => p.1 != "id")).isEmpty = false →
        BaseRepository.update m db item_id obj_in none =
          ({ db with sessions := db.sessions + 1 }, .ok none)) ∧
      (hasattrModel m "is_deleted" = true →
        BaseRepository.soft_delete m db item_id none =
          ({ db with sessions := db.sessions + 1 }, .ok false) ∧
        BaseRepository.restore m db item_id none =
          ({ db with sessions := db.sessions + 1 }, .ok false)) ∧
      BaseRepository.force_delete m db item_id none =
        ({ db with sessions := db.sessions + 1 }, .ok false) := by
  intro m db item_id obj_in h
  have hfind : db.recs.find? (fun r => r.id == item_id) = none := by
    rw [List.find?_eq_none]
    intro x hx
    have hx2 := (List.all_eq_true.mp h) x hx
    simp only [Bool.not_eq_eq_eq_not, Bool.not_true] at hx2
    simp [hx2]
  refine ⟨?_, ?_, ?_⟩
  · intro hne
    simp [BaseRepository.update, hne, hfind]
  · intro hattr
    constructor <;>
      simp [BaseRepository.soft_delete, BaseRepository.restore, hattr, hfind]
  · simp [BaseRepository.force_delete, hfind]

/-- C6 witness: id 99 matches nothing in the concrete store; all four
operations report the not-found condition without an error. -/
theorem c6_missing_id_not_found_witness :
    BaseRepository.update wModel wDb 99 [("title", Val.vStr "x")] none =
      ({ wDb with sessions := 1 }, .ok none) ∧
    BaseRepository.soft_delete wModel wDb 99 none =
      ({ wDb with sessions := 1 }, .ok false) ∧
    BaseRepository.restore wModel wDb 99 none =
      ({ wDb with sessions := 1 }, .ok false) ∧
    BaseRepository.force_delete wModel wDb 99 none =
      ({ wDb with sessions := 1 }, .ok false) :=
  ⟨(c6_missing_id_not_found wModel wDb 99 [("title", Val.vStr "x")]
      (by decide)).1 (by decide),
   ((c6_missing_id_not_found wModel wDb 99 [("title", Val.vStr "x")]
      (by decide)).2.1 (by decide)).1,
   ((c6_missing_id_not_found wModel wDb 99 [("title", Val.vStr "x")]
      (by decide)).2.1 (by decide)).2,
   (c6_missing_id_not_found wModel wDb 99 [("title", Val.vStr "x")]
      (by decide)).2.2⟩

/-- C7: every transactional write translates an injected storage failure
into the `_handle_db_error` result with the stored records left as they
were before the operation (the rollback), the translated message names the
failing operation and embeds the engine's message, and integrity failures
get a distinct message while sharing the single `RepositoryError` type. -/
theorem c7_rollback_and_translation :
    (∀ (m : ModelDecl) (db : DB) (obj_in : List (String × Val))
        (e : DBError),
      BaseRepository.create m db obj_in (some e) =
        ({ db with sessions := db.sessions + 1 },
          .error (BaseRepository.handle_db_error e "create"))) ∧
    (∀ (m : ModelDecl) (db : DB) (objs : List (List (String × Val)))
        (e : DBError),
      BaseRepository.create_many m db objs (some e) =
        ({ db with sessions := db.sessions + 1 },
          .error (BaseRepository.handle_db_error e "create_many"))) ∧
    (∀ (m : ModelDecl) (db : DB) (i : Int) (obj : List (String × Val))
        (e : DBError),
      (obj.filter (fun p => p.1 != "id")).isEmpty = false →
      BaseRepository.update m db i obj (some e) =
        ({ db with sessions := db.sessions + 1 },
          .error (BaseRepository.handle_db_error e "update"))) ∧
    (∀ (m : ModelDecl) (db : DB) (i : Int) (e : DBError),
      hasattrModel m "is_deleted" = true →
      BaseRepository.soft_delete m db i (some e) =
        ({ db with sessions := db.sessions + 1 },
          .error (.repoError
            (BaseRepository.handle_db_error e "soft_delete"))) ∧
      BaseRepository.restore m db i (some e) =
        ({ db with sessions := db.sessions + 1 },
          .error (.repoError (BaseRepository.handle_db_error e "restore")))) ∧
    (∀ (m : ModelDecl) (db : DB) (i : Int) (e : DBError),
      BaseRepository.force_delete m db i (some e) =
        ({ db with sessions := db.sessions + 1 },
          .error (BaseRepository.handle_db_error e "force_delete"))) ∧
    (∀ (m : ModelDecl) (db : DB) (ids : List Int) (e : DBError),
      BaseRepository.force_delete_many m db ids (some e) =
        ({ db with sessions := db.sessions + 1 },
          .error (BaseRepository.handle_db_error e "force_delete_many"))) ∧
    (∀ (cause op : String),
      BaseRepository.handle_db_error (.integrity cause) op =
        ⟨"Database integrity error during " ++ op ++ ": " ++ cause⟩) ∧
    (∀ (cause op : String),
      BaseRepository.handle_db_error (.other cause) op =
        ⟨"Database error during " ++ op ++ ": " ++ cause⟩) ∧
    (∀ (cause op : String),
      BaseRepository.handle_db_error (.integrity cause) op ≠
        BaseRepository.handle_db_error (.other cause) op) := by
  refine ⟨fun m db x e => rfl, fun m db x e => rfl, ?_, ?_,
    fun m db i e => rfl, fun m db ids e => rfl,
    fun c op => rfl, fun c op => rfl, ?_⟩
  · intro m db i obj e hne
    simp [BaseRepository.update, hne]
  · intro m db i e hattr
    constructor <;>
      simp [BaseRepository.soft_delete, BaseRepository.restore, hattr]
  · intro cause op hEq
    have hlen := congrArg (fun r : RepoErr => r.msg.length) hEq
    simp only [BaseRepository.handle_db_error, String.length_append] at hlen
    simp only
      [show ("Database integrity error during " : String).length = 32 from
        by decide,
       show ("Database error during " : String).length = 22 from by decide,
       show (": " : String).length = 2 from by decide] at hlen
    omega

/-- C7 witness: an integrity failure during `create`, a generic failure
during `update` and during `soft_delete` on the concrete store, and the
distinctness of the two translated messages. -/
theorem c7_rollback_and_translation_witness :
    BaseRepository.create wModel wDb [("title", Val.vStr "x")]
        (some (DBError.integrity "dup")) =
      ({ wDb with sessions := 1 },
        .error ⟨"Database integrity error during create: dup"⟩) ∧
    BaseRepository.update wModel wDb 1 [("title", Val.vStr "x")]
        (some (DBError.other "boom")) =
      ({ wDb with sessions := 1 },
        .error ⟨"Database error during update: boom"⟩) ∧
    BaseRepository.soft_delete wModel wDb 1 (some (DBError.other "boom")) =
      ({ wDb with sessions := 1 },
        .error (.repoError ⟨"Database error during soft_delete: boom"⟩)) ∧
    BaseRepository.handle_db_error (.integrity "x") "create" ≠
      BaseRepository.handle_db_error (.other "x") "create" :=
  ⟨c7_rollback_and_translation.1 wModel wDb [("title", Val.vStr "x")]
      (DBError.integrity "dup"),
   c7_rollback_and_translation.2.2.1 wModel wDb 1 [("title", Val.vStr "x")]
      (DBError.other "boom") (by decide),
   (c7_rollback_and_translation.2.2.2.1 wModel wDb 1 (DBError.other "boom")
      (by decide)).1,
   c7_rollback_and_translation.2.2.2.2.2.2.2.2 "x" "create"⟩

/-- Unfolding of `restore` when the record is found and no failure is
injected. -/
theorem restore_found (m : ModelDecl) (db : DB) (item_id : Int) (r : Rec)
    (hattr : hasattrModel m "is_deleted" = true)
    (hfind : db.recs.find? (fun x => x.id == item_id) = some r) :
    BaseRepository.restore m db item_id none =
      ({ recs := replaceFirst db.recs item_id
           (setAttrRec r "is_deleted" (Val.vBool false)),
         sessions := db.sessions + 1 }, .ok true) := by
  unfold BaseRepository.restore
  rw [if_neg (by simp [hattr])]
  simp only [hfind]

/-- Restoring a record whose flag already reads `false` rewrites nothing:
the store is returned with only the session counter advanced. -/
theorem restore_noop (m : ModelDecl) (db : DB) (item_id : Int) (r : Rec)
    (hattr : hasattrModel m "is_deleted" = true)
    (hfind : db.recs.find? (fun x => x.id == item_id) = some r)
    (hlook : r.attrs.lookup "is_deleted" = some (Val.vBool false)) :
    BaseRepository.restore m db item_id none =
      ({ db with sessions := db.sessions + 1 }, .ok true) := by
  rw [restore_found m db item_id r hattr hfind]
  have hset : setAttrRec r "is_deleted" (Val.vBool false) = r := by
    unfold setAttrRec
    rw [setAttrList_of_lookup_eq _ _ _ hlook]
  rw [hset, replaceFirst_of_find? _ _ _ hfind]

/-- C9: restoring an existing record that is already restored (its
soft-delete flag reads `false`) returns `ok true` and leaves the stored
records unchanged; moreover a second `restore` after any `restore` of an
existing record changes nothing and also returns `ok true`. -/
theorem c9_restore_idempotent :
    ∀ (m : ModelDecl) (db : DB) (item_id : Int) (r : Rec),
      hasattrModel m "is_deleted" = true →
      db.recs.find? (fun x => x.id == item_id) = some r →
      (r.attrs.lookup "is_deleted" = some (Val.vBool false) →
        BaseRepository.restore m db item_id none =
          ({ db with sessions := db.sessions + 1 }, .ok true)) ∧
      ((BaseRepository.restore m
          (BaseRepository.restore m db item_id none).1 item_id none).1.recs
        = (BaseRepository.restore m db item_id none).1.recs ∧
       (BaseRepository.restore m
          (BaseRepository.restore m db item_id none).1 item_id none).2
        = .ok true) := by
  intro m db item_id r hattr hfind
  have hid : (r.id == item_id) = true := by
    simpa using List.find?_some hfind
  constructor
  · intro hlook
    exact restore_noop m db item_id r hattr hfind hlook
  · have hfound := restore_found m db item_id r hattr hfind
    have hfind1 : (BaseRepository.restore m db item_id none).1.recs.find?
        (fun x => x.id == item_id)
        = some (setAttrRec r "is_deleted" (Val.vBool false)) := by
      rw [hfound]
      exact find?_replaceFirst _ _ _ _ hfind hid
    have hlook1 : (setAttrRec r "is_deleted"
          (Val.vBool false)).attrs.lookup "is_deleted"
        = some (Val.vBool false) := lookup_setAttrList_self _ _ _
    have hnoop := restore_noop m
      (BaseRepository.restore m db item_id none).1
      item_id (setAttrRec r "is_deleted" (Val.vBool false)) hattr hfind1 hlook1
    rw [hnoop]
    exact ⟨rfl, rfl⟩

/-- C9 witness: restoring the live record of the concrete store (flag
already `false`) succeeds and changes nothing; restoring the soft-deleted
record twice equals restoring it once. -/
theorem c9_restore_idempotent_witness :
    BaseRepository.restore wModel wDb 1 none =
      ({ wDb with sessions := 1 }, .ok true) ∧
    (BaseRepository.restore wModel
        (BaseRepository.restore wModel wDb 2 none).1 2 none).1.recs
      = (BaseRepository.restore wModel wDb 2 none).1.recs :=
  ⟨(c9_restore_idempotent wModel wDb 1 wAlive (by decide) (by decide)).1
      (by decide),
   ((c9_restore_idempotent wModel wDb 2 wDead (by decide) (by decide)).2).1⟩

/-- Any record passing the select statement with the soft-delete filter
active (flag declared, `include_deleted = false`) has its flag unset. -/
theorem mem_selectRecs_not_deleted (m : ModelDecl)
    (fl : List (String × Val)) (recs : List Rec) (x : Rec)
    (hattr : hasattrModel m "is_deleted" = true)
    (hx : x ∈ BaseRepository.selectRecs m false fl recs) :
    isFlagSet x = false := by
  unfold BaseRepository.selectRecs at hx
  rw [List.mem_filter] at hx
  have hsoft := ((Bool.and_eq_true _ _).mp hx.2).1
  simp [BaseRepository.softDeleteOk, hattr] at hsoft
  simp [getattrRec] at hsoft
  simp [isFlagSet, hsoft]

/-- With `include_deleted = true` and no extra filters, the select
statement passes every record through. -/
theorem selectRecs_true_nil (m : ModelDecl) (recs : List Rec) :
    BaseRepository.selectRecs m true [] recs = recs := by
  unfold BaseRepository.selectRecs
  have h : ∀ r ∈ recs, (BaseRepository.softDeleteOk m true r
      && List.all [] (BaseRepository.matchesFilter m r)) = (fun _ => true) r :=
    fun r _ => rfl
  rw [List.filter_congr h, List.filter_true]

/-- The soft-delete filter factors: selecting with the filter active equals
selecting with it off over the records whose flag column reads `False`. -/
theorem selectRecs_false_eq (m : ModelDecl) (fl : List (String × Val))
    (recs : List Rec) (hattr : hasattrModel m "is_deleted" = true) :
    BaseRepository.selectRecs m false fl recs
      = BaseRepository.selectRecs m true fl
          (recs.filter
            (fun r => getattrRec r "is_deleted"
              == some (Val.vBool false))) := by
  unfold BaseRepository.selectRecs
  rw [List.filter_filter]
  apply List.filter_congr
  intro r _
  simp only [BaseRepository.softDeleteOk, hattr]
  cases h1 : (getattrRec r "is_deleted" == some (Val.vBool false)) <;>
    cases h2 : (fl.all (BaseRepository.matchesFilter m r)) <;> simp [h1, h2]

/-- `exists` answers `false` for a soft-deleted record when the filter is
active and `true` when deleted records are included. -/
theorem existsItem_flagged (m : ModelDecl) (db : DB) (i : Int) (r : Rec)
    (hattr : hasattrModel m "is_deleted" = true)
    (hfilter : db.recs.filter (fun x => x.id == i) = [r])
    (hflag : isFlagSet r = true) :
    BaseRepository.existsItem m db i false = false ∧
    BaseRepository.existsItem m db i true = true := by
  have hlook : r.attrs.lookup "is_deleted" = some (Val.vBool true) := by
    simpa [isFlagSet] using hflag
  have hsplit : ∀ inc : Bool,
      db.recs.filter
          (fun x => x.id == i && BaseRepository.softDeleteOk m inc x)
        = (db.recs.filter (fun x => x.id == i)).filter
            (BaseRepository.softDeleteOk m inc) := by
    intro inc
    rw [List.filter_filter]
    apply List.filter_congr
    intro x _
    cases h1 : (x.id == i) <;>
      cases h2 : BaseRepository.softDeleteOk m inc x <;> simp [h1, h2]
  constructor
  · unfold BaseRepository.existsItem
    rw [hsplit false, hfilter]
    have hsoft : BaseRepository.softDeleteOk m false r = false := by
      simp [BaseRepository.softDeleteOk, hattr, getattrRec, hlook]
    simp [List.filter_cons, hsoft]
  · unfold BaseRepository.existsItem
    rw [hsplit true, hfilter]
    simp [BaseRepository.softDeleteOk, List.filter_cons]

/-- With `include_deleted = true`, `get` returns a record whose id is
uniquely held, soft-deleted or not. -/
theorem get_included (m : ModelDecl) (db : DB) (r : Rec)
    (hfilter : db.recs.filter (fun x => x.id == r.id) = [r]) :
    BaseRepository.get m db r.id true [] = some r := by
  unfold BaseRepository.get
  rw [selectRecs_true_nil, hfilter]
  rfl

/-- `force_delete` removes the uniquely-identified record — no soft-delete
condition is consulted. -/
theorem force_delete_removes (m : ModelDecl) (db : DB) (r : Rec)
    (hfilter : db.recs.filter (fun x => x.id == r.id) = [r]) :
    BaseRepository.force_delete m db r.id none =
      ({ recs := removeFirst db.recs r.id, sessions := db.sessions + 1 },
        .ok true) ∧
    r ∉ (BaseRepository.force_delete m db r.id none).1.recs := by
  have hfind : db.recs.find? (fun x => x.id == r.id) = some r := by
    have hh := List.filter_head? (fun x => x.id == r.id) db.recs
    rw [hfilter] at hh
    exact hh.symm
  have heq : BaseRepository.force_delete m db r.id none =
      ({ recs := removeFirst db.recs r.id, sessions := db.sessions + 1 },
        .ok true) := by
    unfold BaseRepository.force_delete
    simp only [hfind]
  refine ⟨heq, ?_⟩
  rw [heq]
  intro hmem
  have h2 : r ∈ (removeFirst db.recs r.id).filter
      (fun x => x.id == r.id) := by
    rw [List.mem_filter]
    exact ⟨hmem, by simp⟩
  rw [filter_removeFirst, hfilter] at h2
  simp at h2

/-- C3: for an entity declaring the soft-delete flag, records whose flag is
set never appear in the results of `get`, `get_one`, `get_many` or `list`
and are not counted by `count` when `include_deleted` is false; with
`include_deleted = true` the count ranges over all records matching the
filters and `get` returns a soft-deleted record; `exists` follows the same
filter; and `force_delete` removes a record regardless of its flag. -/
theorem c3_soft_delete_semantics :
    (∀ (m : ModelDecl) (db : DB) (i : Int) (fl : List (String × Val))
        (x : Rec), hasattrModel m "is_deleted" = true →
      BaseRepository.get m db i false fl = some x → isFlagSet x = false) ∧
    (∀ (m : ModelDecl) (db : DB) (fl : List (String × Val)) (x : Rec),
      hasattrModel m "is_deleted" = true →
      BaseRepository.get_one m db false fl = some x →
      isFlagSet x = false) ∧
    (∀ (m : ModelDecl) (db : DB) (skip limit : Nat)
        (fl : List (String × Val)) (x : Rec),
      hasattrModel m "is_deleted" = true →
      x ∈ BaseRepository.get_many m db skip limit false fl →
      isFlagSet x = false) ∧
    (∀ (m : ModelDecl) (db : DB) (page per_page : Int)
        (fl : List (String × Val)) (x : Rec),
      hasattrModel m "is_deleted" = true →
      x ∈ (BaseRepository.list m db page per_page false fl).data →
      isFlagSet x = false) ∧
    (∀ (m : ModelDecl) (recs : List Rec) (s : Nat)
        (fl : List (String × Val)),
      hasattrModel m "is_deleted" = true →
      BaseRepository.count m ⟨recs, s⟩ false fl =
        BaseRepository.count m
          ⟨recs.filter (fun r => getattrRec r "is_deleted"
            == some (Val.vBool false)), s⟩ true fl) ∧
    (∀ (m : ModelDecl) (db : DB) (fl : List (String × Val)),
      BaseRepository.count m db true fl =
        (db.recs.filter
          (fun r => fl.all (BaseRepository.matchesFilter m r))).length) ∧
    (∀ (m : ModelDecl) (db : DB) (i : Int) (r : Rec),
      hasattrModel m "is_deleted" = true →
      db.recs.filter (fun x => x.id == i) = [r] →
      isFlagSet r = true →
      BaseRepository.existsItem m db i false = false ∧
      BaseRepository.existsItem m db i true = true) ∧
    (∀ (m : ModelDecl) (db : DB) (r : Rec),
      db.recs.filter (fun x => x.id == r.id) = [r] →
      BaseRepository.get m db r.id true [] = some r) ∧
    (∀ (m : ModelDecl) (db : DB) (r : Rec),
      db.recs.filter (fun x => x.id == r.id) = [r] →
      BaseRepository.force_delete m db r.id none =
        ({ recs := removeFirst db.recs r.id, sessions := db.sessions + 1 },
          .ok true) ∧
      r ∉ (BaseRepository.force_delete m db r.id none).1.recs) := by
  refine ⟨?_, ?_, ?_, ?_, ?_, ?_, ?_, ?_, ?_⟩
  · intro m db i fl x hattr hx
    unfold BaseRepository.get at hx
    have hmem := List.mem_of_mem_head? hx
    rw [List.mem_filter] at hmem
    exact mem_selectRecs_not_deleted m fl db.recs x hattr hmem.1
  · intro m db fl x hattr hx
    unfold BaseRepository.get_one at hx
    exact mem_selectRecs_not_deleted m fl db.recs x hattr
      (List.mem_of_mem_head? hx)
  · intro m db skip limit fl x hattr hx
    unfold BaseRepository.get_many at hx
    exact mem_selectRecs_not_deleted m fl db.recs x hattr
      (List.mem_of_mem_drop (List.mem_of_mem_take hx))
  · intro m db page per_page fl x hattr hx
    exact mem_selectRecs_not_deleted m fl db.recs x hattr
      (List.mem_of_mem_drop (List.mem_of_mem_take hx))
  · intro m recs s fl hattr
    unfold BaseRepository.count
    exact congrArg List.length (selectRecs_false_eq m fl recs hattr)
  · intro m db fl
    unfold BaseRepository.count BaseRepository.selectRecs
    apply congrArg List.length
    apply List.filter_congr
    intro r _
    cases h2 : (fl.all (BaseRepository.matchesFilter m r)) <;>
      simp [BaseRepository.softDeleteOk, h2]
  · intro m db i r hattr hfilter hflag
    exact existsItem_flagged m db i r hattr hfilter hflag
  · intro m db r hfilter
    exact get_included m db r hfilter
  · intro m db r hfilter
    exact force_delete_removes m db r hfilter

/-- C3 witness: in the concrete store the soft-deleted record (id 2) is
invisible to `exists` under the default filter, visible to `get` and
`exists` when `include_deleted` is true, the filtered count factors through
the non-deleted records, and `force_delete` removes the record despite its
set flag. -/
theorem c3_soft_delete_semantics_witness :
    BaseRepository.existsItem wModel wDb 2 false = false ∧
    BaseRepository.existsItem wModel wDb 2 true = true ∧
    BaseRepository.get wModel wDb 2 true [] = some wDead ∧
    BaseRepository.count wModel wDb false [] =
      BaseRepository.count wModel
        ⟨wDb.recs.filter (fun r => getattrRec r "is_deleted"
          == some (Val.vBool false)), 0⟩ true [] ∧
    wDead ∉ (BaseRepository.force_delete wModel wDb 2 none).1.recs :=
  ⟨(c3_soft_delete_semantics.2.2.2.2.2.2.1 wModel wDb 2 wDead
      (by decide) (by decide) (by decide)).1,
   (c3_soft_delete_semantics.2.2.2.2.2.2.1 wModel wDb 2 wDead
      (by decide) (by decide) (by decide)).2,
   c3_soft_delete_semantics.2.2.2.2.2.2.2.1 wModel wDb wDead (by decide),
   c3_soft_delete_semantics.2.2.2.2.1 wModel wDb.recs 0 [] (by decide),
   (c3_soft_delete_semantics.2.2.2.2.2.2.2.2 wModel wDb wDead
      (by decide)).2⟩

/-- A filter keyed by an undeclared attribute imposes no condition. -/
theorem matchesFilter_unknown (m : ModelDecl) (r : Rec) (k : String)
    (v : Val) (h : hasattrModel m k = false) :
    BaseRepository.matchesFilter m r (k, v) = true := by
  unfold BaseRepository.matchesFilter
  simp [h]

/-- Dropping an unknown-key filter anywhere in the filter list leaves the
selected record set unchanged. -/
theorem selectRecs_unknown_filter (m : ModelDecl) (inc : Bool) (k : String)
    (v : Val) (fl fl2 : List (String × Val)) (recs : List Rec)
    (h : hasattrModel m k = false) :
    BaseRepository.selectRecs m inc (fl ++ (k, v) :: fl2) recs
      = BaseRepository.selectRecs m inc (fl ++ fl2) recs := by
  unfold BaseRepository.selectRecs
  apply List.filter_congr
  intro r _
  simp [List.all_append, List.all_cons, matchesFilter_unknown m r k v h]

/-- Overwriting an attribute that is present preserves which keys an
instance has. -/
theorem hasattrRec_setAttrRec (r : Rec) (k' : String) (v' : Val)
    (k : String) (h : (r.attrs.lookup k').isSome = true) :
    hasattrRec (setAttrRec r k' v') k = hasattrRec r k := by
  unfold hasattrRec setAttrRec
  rw [lookup_setAttrList_isSome r.attrs k' v' k h]

/-- The guarded update loop preserves which keys an instance has. -/
theorem hasattrRec_applyUpdateData (r : Rec) (data : List (String × Val))
    (k : String) :
    hasattrRec (BaseRepository.applyUpdateData r data) k
      = hasattrRec r k := by
  induction data generalizing r with
  | nil => rfl
  | cons p rest ih =>
    have hstep : BaseRepository.applyUpdateData r (p :: rest)
        = BaseRepository.applyUpdateData
            (if hasattrRec r p.1 && p.1 != "id" then setAttrRec r p.1 p.2
             else r) rest := by
      unfold BaseRepository.applyUpdateData
      rw [List.foldl_cons]
    rw [hstep, ih]
    by_cases hg : (hasattrRec r p.1 && p.1 != "id") = true
    · rw [if_pos hg]
      have hh := ((Bool.and_eq_true _ _).mp hg).1
      have hh2 := ((Bool.and_eq_true _ _).mp hg).2
      have hid : (p.1 == "id") = false := by
        cases hpe : (p.1 == "id")
        · rfl
        · rw [bne, hpe] at hh2
          simp at hh2
      have hlook : (r.attrs.lookup p.1).isSome = true := by
        unfold hasattrRec at hh
        rw [hid] at hh
        simpa using hh
      exact hasattrRec_setAttrRec r p.1 p.2 k hlook
    · rw [if_neg hg]

/-- Appending an update pair whose key the instance lacks leaves the
applied update unchanged. -/
theorem applyUpdateData_append_unknown (r : Rec)
    (data : List (String × Val)) (k : String) (v : Val)
    (h : hasattrRec r k = false) :
    BaseRepository.applyUpdateData r (data ++ [(k, v)])
      = BaseRepository.applyUpdateData r data := by
  have hstep : BaseRepository.applyUpdateData r (data ++ [(k, v)])
      = (if hasattrRec (BaseRepository.applyUpdateData r data) k
            && k != "id"
         then setAttrRec (BaseRepository.applyUpdateData r data) k v
         else BaseRepository.applyUpdateData r data) := by
    unfold BaseRepository.applyUpdateData
    rw [List.foldl_append]
    rfl
  rw [hstep, hasattrRec_applyUpdateData, h]
  simp

/-- Unfolding of `update` when the change-set is non-empty, no failure is
injected, and the record is found. -/
theorem update_found (m : ModelDecl) (db : DB) (i : Int)
    (obj : List (String × Val)) (r : Rec)
    (hne : (obj.filter (fun p => p.1 != "id")).isEmpty = false)
    (hfind : db.recs.find? (fun x => x.id == i) = some r) :
    BaseRepository.update m db i obj none =
      ({ recs := replaceFirst db.recs i
           (BaseRepository.applyUpdateData r
             (obj.filter (fun p => p.1 != "id"))),
         sessions := db.sessions + 1 },
        .ok (some (BaseRepository.applyUpdateData r
          (obj.filter (fun p => p.1 != "id"))))) := by
  unfold BaseRepository.update
  rw [if_neg (by simp [hne])]
  simp only [hfind]

/-- C10: an equality filter keyed by a name the entity does not declare is
silently dropped — `get`, `get_one`, `get_many`, `list` and `count` return
exactly what they return without it — and an update-map key the fetched
instance does not carry is skipped, leaving the stored record exactly as
the update without that key leaves it. -/
theorem c10_unknown_keys_ignored :
    (∀ (m : ModelDecl) (db : DB) (i : Int) (k : String) (v : Val)
        (fl fl2 : List (String × Val)) (inc : Bool),
      hasattrModel m k = false →
      BaseRepository.get m db i inc (fl ++ (k, v) :: fl2)
        = BaseRepository.get m db i inc (fl ++ fl2)) ∧
    (∀ (m : ModelDecl) (db : DB) (k : String) (v : Val)
        (fl fl2 : List (String × Val)) (inc : Bool),
      hasattrModel m k = false →
      BaseRepository.get_one m db inc (fl ++ (k, v) :: fl2)
        = BaseRepository.get_one m db inc (fl ++ fl2)) ∧
    (∀ (m : ModelDecl) (db : DB) (skip limit : Nat) (k : String) (v : Val)
        (fl fl2 : List (String × Val)) (inc : Bool),
      hasattrModel m k = false →
      BaseRepository.get_many m db skip limit inc (fl ++ (k, v) :: fl2)
        = BaseRepository.get_many m db skip limit inc (fl ++ fl2)) ∧
    (∀ (m : ModelDecl) (db : DB) (page per_page : Int) (k : String)
        (v : Val) (fl fl2 : List (String × Val)) (inc : Bool),
      hasattrModel m k = false →
      BaseRepository.list m db page per_page inc (fl ++ (k, v) :: fl2)
        = BaseRepository.list m db page per_page inc (fl ++ fl2)) ∧
    (∀ (m : ModelDecl) (db : DB) (k : String) (v : Val)
        (fl fl2 : List (String × Val)) (inc : Bool),
      hasattrModel m k = false →
      BaseRepository.count m db inc (fl ++ (k, v) :: fl2)
        = BaseRepository.count m db inc (fl ++ fl2)) ∧
    (∀ (r : Rec) (data : List (String × Val)) (k : String) (v : Val),
      hasattrRec r k = false →
      BaseRepository.applyUpdateData r (data ++ [(k, v)])
        = BaseRepository.applyUpdateData r data) ∧
    (∀ (m : ModelDecl) (db : DB) (i : Int) (k : String) (v : Val)
        (r : Rec) (data : List (String × Val)),
      db.recs.find? (fun x => x.id == i) = some r →
      hasattrRec r k = false →
      (data.filter (fun p => p.1 != "id")).isEmpty = false →
      BaseRepository.update m db i (data ++ [(k, v)]) none
        = BaseRepository.update m db i data none) := by
  refine ⟨?_, ?_, ?_, ?_, ?_, ?_, ?_⟩
  · intro m db i k v fl fl2 inc h
    unfold BaseRepository.get
    rw [selectRecs_unknown_filter m inc k v fl fl2 db.recs h]
  · intro m db k v fl fl2 inc h
    unfold BaseRepository.get_one
    rw [selectRecs_unknown_filter m inc k v fl fl2 db.recs h]
  · intro m db skip limit k v fl fl2 inc h
    unfold BaseRepository.get_many
    rw [selectRecs_unknown_filter m inc k v fl fl2 db.recs h]
  · intro m db page per_page k v fl fl2 inc h
    unfold BaseRepository.list
    rw [selectRecs_unknown_filter m inc k v fl fl2 db.recs h]
  · intro m db k v fl fl2 inc h
    unfold BaseRepository.count
    rw [selectRecs_unknown_filter m inc k v fl fl2 db.recs h]
  · intro r data k v h
    exact applyUpdateData_append_unknown r data k v h
  · intro m db i k v r data hfind hrk hne
    have hkid : (k != "id") = true := by
      unfold hasattrRec at hrk
      cases hke : (k == "id")
      · rw [bne, hke]
        rfl
      · rw [hke] at hrk
        simp at hrk
    have hfilters : (data ++ [(k, v)]).filter (fun p => p.1 != "id")
        = data.filter (fun p => p.1 != "id") ++ [(k, v)] := by
      rw [List.filter_append]
      congr 1
      simp [List.filter_cons, hkid]
    have hne2 : ((data ++ [(k, v)]).filter
        (fun p => p.1 != "id")).isEmpty = false := by
      rw [hfilters]
      cases hfe : data.filter (fun p => p.1 != "id") with
      | nil => rw [hfe] at hne; simp at hne
      | cons a l => rfl
    rw [update_found m db i (data ++ [(k, v)]) r hne2 hfind,
        update_found m db i data r hne hfind, hfilters,
        applyUpdateData_append_unknown r
          (data.filter (fun p => p.1 != "id")) k v hrk]

/-- C10 witness: a `bogus` filter key changes nothing for the read
operations on the concrete store, and a `bogus` update key is applied
without effect on the stored record. -/
theorem c10_unknown_keys_ignored_witness :
    BaseRepository.get wModel wDb 1 false [("bogus", Val.vInt 0)]
      = BaseRepository.get wModel wDb 1 false [] ∧
    BaseRepository.get_one wModel wDb false [("bogus", Val.vInt 0)]
      = BaseRepository.get_one wModel wDb false [] ∧
    BaseRepository.count wModel wDb false [("bogus", Val.vInt 0)]
      = BaseRepository.count wModel wDb false [] ∧
    BaseRepository.update wModel wDb 1
        [("title", Val.vStr "x"), ("bogus", Val.vInt 0)] none
      = BaseRepository.update wModel wDb 1 [("title", Val.vStr "x")] none :=
  ⟨c10_unknown_keys_ignored.1 wModel wDb 1 "bogus" (Val.vInt 0) [] [] false
      (by decide),
   c10_unknown_keys_ignored.2.1 wModel wDb "bogus" (Val.vInt 0) [] [] false
      (by decide),
   c10_unknown_keys_ignored.2.2.2.2.1 wModel wDb "bogus" (Val.vInt 0) [] []
      false (by decide),
   c10_unknown_keys_ignored.2.2.2.2.2.2 wModel wDb 1 "bogus" (Val.vInt 0)
      wAlive [("title", Val.vStr "x")] (by decide) (by decide) (by decide)⟩

end FastapiCrud
